import Mathlib

/-
Verification of the SWE-bench evaluation harness
(examples/evaluation/swebench_verified.py, examples/evaluation/common.py,
examples/evaluation/swe_bench/common.py, examples/evaluation/parser/base_parser.py).

Strings are modelled as `List Char`; Python dicts as association lists or
records; async functions as pure functions over an explicit environment
record capturing the remote side's behaviour (dispatch response text,
per-probe process liveness, output-file contents).
-/

/-- Python `str.strip()` whitespace set: space, tab, newline, carriage
return, vertical tab, form feed (also the set matched by the regex class
backslash-s used in the source's patterns). -/
def isPySpace (c : Char) : Bool :=
  c = ' ' || c = '\t' || c = '\n' || c = '\r' || c = '\x0b' || c = '\x0c'

/-- Python `str.strip()`: drop leading and trailing whitespace. -/
def strip (l : List Char) : List Char :=
  ((l.dropWhile isPySpace).reverse.dropWhile isPySpace).reverse

/-- The fixed start marker from `parse_swebench_result`
(`SWEBENCH_RESULT_START_MARKER` in examples/evaluation/swe_bench/common.py,
inlined in examples/evaluation/common.py). -/
def startMarker : List Char := "SWEBench results starts here".toList

/-- The fixed end marker from `parse_swebench_result`
(`SWEBENCH_RESULT_END_MARKER`). -/
def endMarker : List Char := "SWEBench results ends here".toList

/-- Split a list at the first occurrence of the literal `m`: returns the
text before the first occurrence and the text after it, or `none` when `m`
does not occur.  This is the search primitive underlying the source's
`re.search` of a literal followed by a lazy group: the match begins at the
first occurrence of the leading literal. -/
def splitFirst (m : List Char) : List Char → Option (List Char × List Char)
  | [] => if m.isPrefixOf ([] : List Char) then some ([], []) else none
  | c :: rest =>
    if m.isPrefixOf (c :: rest) then some ([], (c :: rest).drop m.length)
    else
      match splitFirst m rest with
      | some (pre, post) => some (c :: pre, post)
      | none => none

/-- `parse_swebench_result` (examples/evaluation/common.py lines 36-49 and
examples/evaluation/swe_bench/common.py lines 62-72, identical logic):
`re.search` of the pattern start-marker, lazy whitespace-padded group,
end-marker under `re.DOTALL`, then `match.group(1).strip() == "PASSED"`.
The leftmost lazy match captures the text between the first occurrence of
the start marker and the first occurrence of the end marker after it; the
surrounding whitespace eaten by the pattern is also removed by the final
`strip`, so stripping the whole in-between text is equivalent. -/
def parse_swebench_result (output : List Char) : Bool :=
  match splitFirst startMarker output with
  | none => false
  | some (_, rest) =>
    match splitFirst endMarker rest with
    | none => false
    | some (inner, _) => strip inner == "PASSED".toList

/-- Whether the literal `m` occurs in `s` starting at index `i`. -/
def occursAtB (m s : List Char) (i : Nat) : Bool :=
  m.isPrefixOf (s.drop i)

/-- Modelled from the claim's words: the output contains a region delimited
by the two fixed marker strings whose inner content, after trimming
surrounding whitespace, equals exactly `PASSED`.  (Spec-side predicate, to
be compared with `parse_swebench_result`.) -/
def containsPassedRegion (output : List Char) : Prop :=
  ∃ pre mid post,
    output = pre ++ startMarker ++ mid ++ endMarker ++ post ∧
    strip mid = "PASSED".toList

theorem isPrefixOf_iff_exists_append (m : List Char) :
    ∀ s : List Char, m.isPrefixOf s = true ↔ ∃ t, s = m ++ t := by
  induction m with
  | nil =>
    intro s
    simp [List.isPrefixOf]
  | cons a as ih =>
    intro s
    cases s with
    | nil =>
      simp [List.isPrefixOf]
    | cons b bs =>
      simp only [List.isPrefixOf, Bool.and_eq_true, beq_iff_eq, ih bs]
      constructor
      · rintro ⟨hab, t, ht⟩
        exact ⟨t, by simp [hab, ht]⟩
      · rintro ⟨t, ht⟩
        simp only [List.cons_append, List.cons.injEq] at ht
        exact ⟨ht.1.symm, t, ht.2⟩

theorem splitFirst_some_decomp (m : List Char) :
    ∀ s pre post : List Char, splitFirst m s = some (pre, post) →
      s = pre ++ m ++ post ∧ ∀ i, i < pre.length → occursAtB m s i = false := by
  intro s
  induction s with
  | nil =>
    intro pre post h
    simp only [splitFirst] at h
    by_cases hm : m.isPrefixOf ([] : List Char) = true
    · rw [if_pos hm] at h
      obtain ⟨t, ht⟩ := (isPrefixOf_iff_exists_append m []).mp hm
      have hm0 : m = [] := by
        cases m with
        | nil => rfl
        | cons a as => simp at ht
      obtain ⟨hpre, hpost⟩ : pre = [] ∧ post = [] := by
        constructor <;> · injection h with h'; cases h'; rfl
      subst hpre; subst hpost; subst hm0
      exact ⟨rfl, by intro i hi; simp at hi⟩
    · rw [if_neg hm] at h
      exact absurd h (by simp)
  | cons c rest ih =>
    intro pre post h
    simp only [splitFirst] at h
    by_cases hm : m.isPrefixOf (c :: rest) = true
    · rw [if_pos hm] at h
      obtain ⟨t, ht⟩ := (isPrefixOf_iff_exists_append m (c :: rest)).mp hm
      have hdrop : (c :: rest).drop m.length = t := by
        rw [ht, List.drop_left]
      obtain ⟨hpre, hpost⟩ : pre = [] ∧ post = (c :: rest).drop m.length := by
        constructor <;> · injection h with h'; cases h'; rfl
      subst hpre; subst hpost
      constructor
      · rw [hdrop, ht]; rfl
      · intro i hi; simp at hi
    · rw [if_neg hm] at h
      cases hsf : splitFirst m rest with
      | none => rw [hsf] at h; exact absurd h (by simp)
      | some pr =>
        obtain ⟨pre', post'⟩ := pr
        rw [hsf] at h
        simp only [Option.some.injEq, Prod.mk.injEq] at h
        obtain ⟨hpre, hpost⟩ := h
        obtain ⟨hdec, hmin⟩ := ih pre' post' hsf
        subst hpre; subst hpost
        constructor
        · simp [hdec]
        · intro i hi
          cases i with
          | zero =>
            show occursAtB m (c :: rest) 0 = false
            unfold occursAtB
            rw [List.drop_zero]
            exact Bool.eq_false_iff.mpr hm
          | succ i' =>
            have : i' < pre'.length := by
              simpa [Nat.succ_lt_succ_iff] using hi
            simpa [occursAtB, List.drop_succ_cons] using hmin i' this

theorem splitFirst_isPrefixOf (m s : List Char) (h : m.isPrefixOf s = true) :
    splitFirst m s = some ([], s.drop m.length) := by
  cases s with
  | nil =>
    obtain ⟨t, ht⟩ := (isPrefixOf_iff_exists_append m []).mp h
    have hm0 : m = [] := by
      cases m with
      | nil => rfl
      | cons a as => simp at ht
    subst hm0
    simp [splitFirst]
  | cons c rest =>
    simp [splitFirst, h]

theorem splitFirst_of_first_occurrence (m : List Char) :
    ∀ pre post : List Char,
      (∀ i, i < pre.length → occursAtB m (pre ++ m ++ post) i = false) →
      splitFirst m (pre ++ m ++ post) = some (pre, post) := by
  intro pre
  induction pre with
  | nil =>
    intro post _h
    have hp : m.isPrefixOf (m ++ post) = true :=
      (isPrefixOf_iff_exists_append m (m ++ post)).mpr ⟨post, rfl⟩
    have := splitFirst_isPrefixOf m (m ++ post) hp
    simpa [List.drop_left] using this
  | cons c pre' ih =>
    intro post h
    have h0 : m.isPrefixOf (c :: (pre' ++ m ++ post)) = false := by
      have := h 0 (by simp)
      simpa [occursAtB] using this
    have hshift : ∀ i, i < pre'.length → occursAtB m (pre' ++ m ++ post) i = false := by
      intro i hi
      have := h (i + 1) (by simpa [Nat.succ_lt_succ_iff] using hi)
      simpa [occursAtB, List.drop_succ_cons] using this
    have hrec := ih post hshift
    show splitFirst m (c :: (pre' ++ m ++ post)) = some (c :: pre', post)
    simp only [splitFirst, h0, Bool.false_eq_true, if_false, hrec]

example : parse_swebench_result ("junk\nSWEBench results starts here\nPASSED\nSWEBench results ends here\nmore".toList) = true := by decide

example : parse_swebench_result ("SWEBench results starts here\nFAILED\nSWEBench results ends here".toList) = false := by decide

example : parse_swebench_result ("no markers at all".toList) = false := by decide

theorem splitFirst_of_first_eq (m s pre post : List Char)
    (hs : s = pre ++ m ++ post)
    (hmin : ∀ i, i < pre.length → occursAtB m s i = false) :
    splitFirst m s = some (pre, post) := by
  subst hs
  exact splitFirst_of_first_occurrence m pre post hmin

/-- Claim C2 (amended): the parser returns true iff the FIRST
marker-delimited region -- the text between the first occurrence of the
start marker and the first occurrence of the end marker after it -- has
inner content that, after trimming surrounding whitespace, equals exactly
PASSED; an inner FAILED, extra text, a case mismatch, or a missing marker
yields false, and so does a PASSED region preceded by an earlier region. -/
theorem parse_iff_first_region (output : List Char) :
    parse_swebench_result output = true ↔
      ∃ pre mid post,
        output = pre ++ startMarker ++ mid ++ endMarker ++ post ∧
        (∀ i, i < pre.length → occursAtB startMarker output i = false) ∧
        (∀ j, j < mid.length → occursAtB endMarker (mid ++ endMarker ++ post) j = false) ∧
        strip mid = "PASSED".toList := by
  constructor
  · intro h
    obtain ⟨⟨pre, rest⟩, h1⟩ : ∃ pr, splitFirst startMarker output = some pr := by
      cases hx : splitFirst startMarker output with
      | none =>
        unfold parse_swebench_result at h
        rw [hx] at h
        exact absurd h (by simp)
      | some pr => exact ⟨pr, rfl⟩
    have h' : (match splitFirst endMarker rest with
        | none => false
        | some (inner, _) => strip inner == "PASSED".toList) = true := by
      unfold parse_swebench_result at h
      rw [h1] at h
      exact h
    cases h2 : splitFirst endMarker rest with
    | none =>
      rw [h2] at h'
      exact absurd h' (by simp)
    | some pr2 =>
      obtain ⟨mid, post⟩ := pr2
      rw [h2] at h'
      have hpass : strip mid = "PASSED".toList := eq_of_beq h'
      obtain ⟨hd1, hmin1⟩ := splitFirst_some_decomp startMarker output pre rest h1
      obtain ⟨hd2, hmin2⟩ := splitFirst_some_decomp endMarker rest mid post h2
      refine ⟨pre, mid, post, ?_, hmin1, ?_, hpass⟩
      · rw [hd1, hd2]
        simp [List.append_assoc]
      · rw [hd2] at hmin2
        exact hmin2
  · rintro ⟨pre, mid, post, hdec, hmin1, hmin2, hpass⟩
    have h1 : splitFirst startMarker output = some (pre, mid ++ endMarker ++ post) := by
      apply splitFirst_of_first_eq startMarker output pre (mid ++ endMarker ++ post)
      · rw [hdec]
        simp [List.append_assoc]
      · exact hmin1
    have h2 : splitFirst endMarker (mid ++ endMarker ++ post) = some (mid, post) :=
      splitFirst_of_first_occurrence endMarker mid post hmin2
    have hres : parse_swebench_result output = (strip mid == "PASSED".toList) := by
      unfold parse_swebench_result
      rw [h1]
      show (match splitFirst endMarker (mid ++ endMarker ++ post) with
        | none => false
        | some (inner, _) => strip inner == "PASSED".toList) = (strip mid == "PASSED".toList)
      rw [h2]
    rw [hres, hpass]
    simp

/-- The concrete output used to separate `parse_swebench_result` from the
claim's containment reading: the first marker block holds FAILED, a later
one holds PASSED. -/
def c2CexOutput : List Char :=
  ("SWEBench results starts here\nFAILED\nSWEBench results ends here\nSWEBench results starts here\nPASSED\nSWEBench results ends here").toList

/-- Claim C2 counterexample: the output contains a marker-delimited region whose
trimmed inner content is exactly PASSED, yet the parser returns false,
because only the first marker-delimited region (which holds FAILED) is
examined. -/
theorem parse_contains_region_cex :
    parse_swebench_result c2CexOutput = false ∧ containsPassedRegion c2CexOutput := by
  constructor
  · decide
  · refine ⟨("SWEBench results starts here\nFAILED\nSWEBench results ends here\n").toList,
      ("\nPASSED\n").toList, [], ?_, ?_⟩
    · decide
    · decide

/-- A well-formed scoring output used to instantiate `parse_iff_first_region`. -/
def c2GoodOutput : List Char :=
  ("SWEBench results starts here\nPASSED\nSWEBench results ends here").toList

theorem parse_iff_first_region_witness : parse_swebench_result c2GoodOutput = true :=
  (parse_iff_first_region c2GoodOutput).mpr
    ⟨[], ("\nPASSED\n").toList, [], by decide, by decide, by decide, by decide⟩

/-- `UnitTestStatus` (examples/evaluation/parser/base_parser.py lines 7-9). -/
inductive UnitTestStatus where
  | PASSED
  | FAILED
deriving DecidableEq

/-- `is_resolved` (examples/evaluation/swebench_verified.py lines 69-73):
`None` yields false; otherwise Python `all(result == UnitTestStatus.PASSED
for result in parser_results.values())` over the dict, modelled as an
association list -- vacuously true when the dict is empty. -/
def is_resolved (parser_results : Option (List (String × UnitTestStatus))) : Bool :=
  match parser_results with
  | none => false
  | some l => l.all (fun p => p.2 == UnitTestStatus.PASSED)

/-- Claim C5 counterexample: on the empty mapping `is_resolved` returns true (the
`all` is vacuous), while the claim demands false for an empty mapping. -/
theorem is_resolved_empty_cex :
    is_resolved (some ([] : List (String × UnitTestStatus))) = true ∧
    ([] : List (String × UnitTestStatus)).length = 0 :=
  ⟨rfl, rfl⟩

/-- Claim C5 (amended): `is_resolved` is true iff the mapping is present (not
None) and every entry -- vacuously including none at all -- is PASSED. -/
theorem is_resolved_iff_all_passed (m : Option (List (String × UnitTestStatus))) :
    is_resolved m = true ↔ ∃ l, m = some l ∧ ∀ p ∈ l, p.2 = UnitTestStatus.PASSED := by
  cases m with
  | none => simp [is_resolved]
  | some l => simp [is_resolved, List.all_eq_true]

theorem is_resolved_iff_all_passed_witness :
    is_resolved (some [(("test_ok" : String), UnitTestStatus.PASSED)]) = true :=
  (is_resolved_iff_all_passed (some [(("test_ok" : String), UnitTestStatus.PASSED)])).mpr
    ⟨[(("test_ok" : String), UnitTestStatus.PASSED)], rfl, by decide⟩

/-- Python `str.splitlines` (used by `_extract_pid`): split at line
terminators; a trailing terminator does not produce a final empty line. -/
def splitlinesAux (cur : List Char) : List Char → List (List Char)
  | [] => if cur = [] then [] else [cur]
  | '\r' :: '\n' :: rest => cur :: splitlinesAux [] rest
  | '\n' :: rest => cur :: splitlinesAux [] rest
  | '\r' :: rest => cur :: splitlinesAux [] rest
  | c :: rest => splitlinesAux (cur ++ [c]) rest

def splitlines (s : List Char) : List (List Char) :=
  splitlinesAux [] s

/-- The anchored pattern of `_extract_pid` -- a literal bracket, one or more
digits, a closing bracket, one or more whitespace characters, then the
captured digit run -- applied with `re.match` semantics (anchored at the
start of the line, trailing text ignored).  Greedy digit/whitespace runs
coincide with maximal `takeWhile` runs because the follower classes are
disjoint. -/
def matchPidLine (l : List Char) : Option (List Char) :=
  match l with
  | '[' :: rest =>
    let ds := rest.takeWhile Char.isDigit
    let r1 := rest.dropWhile Char.isDigit
    if ds = [] then none
    else
      match r1 with
      | ']' :: r2 =>
        let ws := r2.takeWhile isPySpace
        let r3 := r2.dropWhile isPySpace
        if ws = [] then none
        else
          let pid := r3.takeWhile Char.isDigit
          if pid = [] then none else some pid
      | _ => none
  | _ => none

/-- `_extract_pid` (examples/evaluation/swebench_verified.py lines 138-145):
split the dispatch response into lines, strip the last line, and match the
bracketed-job pid pattern against its start; any failure yields the empty
string, never an exception. -/
def _extract_pid (output : List Char) : List Char :=
  match (splitlines output).getLast? with
  | none => []
  | some last_line =>
    match matchPidLine (strip last_line) with
    | some pid => pid
    | none => []

example : _extract_pid ("[1] 12345\n".toList) = "12345".toList := by decide
example : _extract_pid ("nohup: appending output\n[2]  678".toList) = "678".toList := by decide
example : _extract_pid ("no job line here".toList) = [] := by decide
example : _extract_pid ("".toList) = [] := by decide

/-- The remote side's behaviour during one `run_command_with_timeout` call:
the text of the dispatch response (from which the pid is parsed), whether
the `kill -0` liveness probe at second `t` reports the process alive, and
the contents of the output file read back by `cat` on completion. -/
structure SandboxEnv where
  dispatchOutput : String
  aliveAt : Nat → Bool
  fileContents : String

/-- The remote operations `run_command_with_timeout` can perform after the
dispatch.  `killProc` (actually signalling the process) is in the action
vocabulary so that its absence from every trace is a meaningful statement;
the probe is `kill -0`, which sends no signal. -/
inductive RemoteAction where
  | dispatch
  | probe (t : Nat)
  | sleep1
  | readOutput
  | killProc
deriving DecidableEq

/-- The polling loop of `run_command_with_timeout`
(examples/evaluation/swebench_verified.py lines 160-165): while budget
remains, probe liveness; if the process has exited, leave the loop with the
budget untouched; otherwise sleep one second and decrement.  Returns the
remaining budget together with the trace of remote actions. -/
def pollLoop (aliveAt : Nat → Bool) : Nat → Nat → Nat × List RemoteAction
  | _, 0 => (0, [])
  | t, Nat.succ b =>
    if aliveAt t then
      let r := pollLoop aliveAt (t + 1) b
      (r.1, RemoteAction.probe t :: RemoteAction.sleep1 :: r.2)
    else (Nat.succ b, [RemoteAction.probe t])

/-- `run_command_with_timeout` (examples/evaluation/swebench_verified.py
lines 148-169): dispatch the nohup'd command, parse the pid from the
response (empty pid yields the sentinel "execute error"), poll once per
second until exit or exhaustion of `timeout_sec`, then either return the
sentinel "timeout" (budget exhausted, no kill issued) or `cat` the output
file and return its contents.  Total function: no path raises. -/
def run_command_with_timeout (env : SandboxEnv) (timeout_sec : Nat) :
    String × List RemoteAction :=
  if _extract_pid env.dispatchOutput.toList = [] then
    ("execute error", [RemoteAction.dispatch])
  else if (pollLoop env.aliveAt 0 timeout_sec).1 = 0 then
    ("timeout", RemoteAction.dispatch :: (pollLoop env.aliveAt 0 timeout_sec).2)
  else
    (env.fileContents,
      RemoteAction.dispatch :: (pollLoop env.aliveAt 0 timeout_sec).2 ++ [RemoteAction.readOutput])

/-- Which way `run_swe_evaluation` treats the string returned by
`run_command_with_timeout` (examples/evaluation/swebench_verified.py lines
230-237): equality with the sentinel "timeout" is treated as a timeout,
equality with the sentinel "execute error" as a dispatch failure, and
anything else as completed output handed to the result parser. -/
inductive TestOutcome where
  | timedOut
  | dispatchError
  | completedOutput (out : String)
deriving DecidableEq

def classify_test_response (resp : String) : TestOutcome :=
  if resp = "timeout" then TestOutcome.timedOut
  else if resp = "execute error" then TestOutcome.dispatchError
  else TestOutcome.completedOutput resp

def probeCount (tr : List RemoteAction) : Nat :=
  tr.countP (fun a => match a with | RemoteAction.probe _ => true | _ => false)

def sleepCount (tr : List RemoteAction) : Nat :=
  tr.countP (fun a => match a with | RemoteAction.sleep1 => true | _ => false)

theorem pollLoop_all_alive (aliveAt : Nat → Bool) :
    ∀ (b t : Nat), (∀ i, i < b → aliveAt (t + i) = true) →
      (pollLoop aliveAt t b).1 = 0 ∧
      probeCount (pollLoop aliveAt t b).2 = b ∧
      sleepCount (pollLoop aliveAt t b).2 = b ∧
      RemoteAction.killProc ∉ (pollLoop aliveAt t b).2 := by
  intro b
  induction b with
  | zero =>
    intro t _
    refine ⟨rfl, rfl, rfl, ?_⟩
    simp [pollLoop]
  | succ b ih =>
    intro t h
    have ht : aliveAt t = true := by
      have := h 0 (Nat.succ_pos b)
      simpa using this
    have hrest : ∀ i, i < b → aliveAt (t + 1 + i) = true := by
      intro i hi
      have := h (i + 1) (by omega)
      simpa [Nat.add_assoc, Nat.add_comm 1 i] using this
    obtain ⟨h1, h2, h3, h4⟩ := ih (t + 1) hrest
    have heq : pollLoop aliveAt t (Nat.succ b) =
        ((pollLoop aliveAt (t + 1) b).1,
          RemoteAction.probe t :: RemoteAction.sleep1 :: (pollLoop aliveAt (t + 1) b).2) := by
      simp [pollLoop, ht]
    rw [heq]
    refine ⟨h1, ?_, ?_, ?_⟩
    · simp [probeCount, List.countP_cons] at h2 ⊢
      omega
    · simp [sleepCount, List.countP_cons] at h3 ⊢
      omega
    · simp [List.mem_cons]
      exact h4

/-- Claim C8: with a parseable pid and a process alive at every probe below the
budget, the executor makes exactly `timeout_sec` probes, sleeps one second
after each, returns the timeout outcome, and never signals the process. -/
theorem run_command_timeout_behavior (env : SandboxEnv) (timeout_sec : Nat)
    (hpid : _extract_pid env.dispatchOutput.toList ≠ [])
    (halive : ∀ t, t < timeout_sec → env.aliveAt t = true) :
    (run_command_with_timeout env timeout_sec).1 = "timeout" ∧
    probeCount (run_command_with_timeout env timeout_sec).2 = timeout_sec ∧
    sleepCount (run_command_with_timeout env timeout_sec).2 = timeout_sec ∧
    RemoteAction.killProc ∉ (run_command_with_timeout env timeout_sec).2 ∧
    classify_test_response (run_command_with_timeout env timeout_sec).1 = TestOutcome.timedOut := by
  have halive0 : ∀ i, i < timeout_sec → env.aliveAt (0 + i) = true := by
    intro i hi
    simpa using halive i hi
  obtain ⟨h1, h2, h3, h4⟩ := pollLoop_all_alive env.aliveAt timeout_sec 0 halive0
  have hrun : run_command_with_timeout env timeout_sec =
      ("timeout", RemoteAction.dispatch :: (pollLoop env.aliveAt 0 timeout_sec).2) := by
    unfold run_command_with_timeout
    rw [if_neg hpid, if_pos h1]
  rw [hrun]
  refine ⟨rfl, ?_, ?_, ?_, ?_⟩
  · simpa [probeCount, List.countP_cons] using h2
  · simpa [sleepCount, List.countP_cons] using h3
  · simp [List.mem_cons]
    exact h4
  · rfl

def envC8 : SandboxEnv :=
  { dispatchOutput := "[1] 99", aliveAt := fun _ => true, fileContents := "never read" }

theorem run_command_timeout_behavior_witness :
    (run_command_with_timeout envC8 2).1 = "timeout" ∧
    probeCount (run_command_with_timeout envC8 2).2 = 2 ∧
    sleepCount (run_command_with_timeout envC8 2).2 = 2 ∧
    RemoteAction.killProc ∉ (run_command_with_timeout envC8 2).2 ∧
    classify_test_response (run_command_with_timeout envC8 2).1 = TestOutcome.timedOut :=
  run_command_timeout_behavior envC8 2 (by decide) (fun _ _ => rfl)

/-- Claim C9: whenever the dispatch response yields no parseable pid, the
executor returns the dispatch-error outcome after the dispatch alone; the
embedding is a total function, mirroring that no path of the source raises. -/
theorem run_command_dispatch_error (env : SandboxEnv) (timeout_sec : Nat)
    (h : _extract_pid env.dispatchOutput.toList = []) :
    (run_command_with_timeout env timeout_sec).1 = "execute error" ∧
    classify_test_response (run_command_with_timeout env timeout_sec).1 =
      TestOutcome.dispatchError ∧
    (run_command_with_timeout env timeout_sec).2 = [RemoteAction.dispatch] := by
  unfold run_command_with_timeout
  rw [if_pos h]
  exact ⟨rfl, rfl, rfl⟩

def envC9 : SandboxEnv :=
  { dispatchOutput := "bash: warning: no job control\n", aliveAt := fun _ => true,
    fileContents := "never read" }

theorem run_command_dispatch_error_witness :
    (run_command_with_timeout envC9 30).1 = "execute error" ∧
    classify_test_response (run_command_with_timeout envC9 30).1 =
      TestOutcome.dispatchError ∧
    (run_command_with_timeout envC9 30).2 = [RemoteAction.dispatch] :=
  run_command_dispatch_error envC9 30 (by decide)

/-- The run where the remote process exits at once (already dead at the
first probe) and the scoring script's genuine output file content is the
word "timeout". -/
def envC4 : SandboxEnv :=
  { dispatchOutput := "[1] 4242", aliveAt := fun _ => false, fileContents := "timeout" }

/-- Claim C4: a command that finished well before the deadline (process already
exited at the first probe) whose genuine output equals the sentinel word
"timeout" is then classified as a timeout, not as a completed outcome:
classification does depend on string equality with program output. -/
theorem sentinel_collision_misclassified :
    (run_command_with_timeout envC4 5).1 = "timeout" ∧
    envC4.aliveAt 0 = false ∧
    classify_test_response (run_command_with_timeout envC4 5).1 = TestOutcome.timedOut ∧
    envC4.fileContents = "timeout" := by
  refine ⟨?_, rfl, ?_, rfl⟩
  · rfl
  · rfl

/-- The shape of the dict returned by `run_single_task`
(examples/evaluation/swebench_verified.py lines 245-283): optional keys are
modelled as `Option` fields. -/
structure TaskDict where
  task_name : String
  sandbox_id : Option String
  status : String
  resolved : Option Bool
  results : Option String
  error : Option String
deriving DecidableEq

/-- The sandbox lifecycle events a task run can perform on its execution
environment (`sandbox.start()` / `sandbox.stop()`). -/
inductive SandboxEvent where
  | started
  | stopped
deriving DecidableEq

/-- The external world of one `run_single_task` call: what
`load_task_config` produces (or raises), what `start_sandbox` produces (or
raises), and what `run_swe_evaluation` produces (or raises, including the
unpack failure when it returns early).  `evalResult`'s payload is the
`(resolve_result, str(parse_result))` pair. -/
structure TaskEnv where
  configResult : Except String (List (String × String))
  startResult : Except String String
  evalResult : Except String (Bool × String)

/-- Python `dict.get(key, default)` on a string-valued dict modelled as an
association list. -/
def dictGetD (k : String) (l : List (String × String)) (d : String) : String :=
  match l.find? (fun p => p.1 == k) with
  | some p => p.2
  | none => d

/-- `run_single_task` (examples/evaluation/swebench_verified.py lines
245-283), returning the result dict together with the trace of sandbox
lifecycle events.  The `finally` block that would call `sandbox.stop()` is
commented out in the source (lines 279-280), so no branch appends a
`stopped` event. -/
def run_single_task (task_name : String) (env : TaskEnv) : TaskDict × List SandboxEvent :=
  match env.configResult with
  | Except.error e =>
    ({ task_name := task_name, sandbox_id := none, status := "failed",
       resolved := none, results := none, error := some e }, [])
  | Except.ok task_config =>
    if dictGetD "instruction" task_config "" = "" then
      ({ task_name := task_name, sandbox_id := none, status := "failed",
         resolved := none, results := none, error := some "No instruction in task.yaml" }, [])
    else
      match env.startResult with
      | Except.error e =>
        ({ task_name := task_name, sandbox_id := none, status := "failed",
           resolved := none, results := none, error := some e }, [])
      | Except.ok sandbox_id =>
        match env.evalResult with
        | Except.ok rp =>
          ({ task_name := task_name, sandbox_id := some sandbox_id, status := "success",
             resolved := some rp.1, results := some rp.2, error := none },
           [SandboxEvent.started])
        | Except.error e =>
          ({ task_name := task_name, sandbox_id := some sandbox_id, status := "failed",
             resolved := none, results := none, error := some e },
           [SandboxEvent.started])

/-- A run in which everything succeeds: config loads with an instruction,
the sandbox starts, the evaluation returns a resolved verdict. -/
def envC1 : TaskEnv :=
  { configResult := Except.ok [(("instruction" : String), ("fix the bug" : String))],
    startResult := Except.ok "sandbox-1",
    evalResult := Except.ok (true, "all tests passed") }

/-- Claim C1: on a fully successful run the sandbox is started, yet on no
run whatsoever -- success, parse failure, or exception -- does
`run_single_task` ever stop it: the teardown call is commented out. -/
theorem sandbox_started_never_stopped :
    ((run_single_task "django__django-10097" envC1).2.contains SandboxEvent.started) = true ∧
    ∀ (task_name : String) (env : TaskEnv),
      ((run_single_task task_name env).2.contains SandboxEvent.stopped) = false := by
  refine ⟨rfl, ?_⟩
  intro task_name env
  unfold run_single_task
  split
  · rfl
  · split
    · rfl
    · split
      · rfl
      · split
        · rfl
        · rfl

/-- The bash session name used by `run_swe_evaluation` for a given task
(examples/evaluation/swebench_verified.py line 190, and
examples/evaluation/swe_bench/swe_bench_verified_demo.py line 45): the
literal "swe-evaluation", independent of the task. -/
def swe_session_name (task_name : String) : String := "swe-evaluation"

/-- The remote output-file path used for a given task's test run
(examples/evaluation/swebench_verified.py lines 219 and 227): the literal
"/tests/test.txt", independent of the task. -/
def swe_output_file (task_name : String) : String := "/tests/test.txt"

/-- Claim C7: the session identifier and output-file path are the same for
every pair of tasks -- in particular for two concrete distinct task names
run under parallelism greater than one -- instead of being derived from the
task name. -/
theorem shared_session_name_collision :
    (∀ t1 t2 : String, swe_session_name t1 = swe_session_name t2 ∧
      swe_output_file t1 = swe_output_file t2) ∧
    swe_session_name "django__django-11141" = swe_session_name "psf__requests-1724" ∧
    swe_output_file "django__django-11141" = swe_output_file "psf__requests-1724" ∧
    (("django__django-11141" : String) == ("psf__requests-1724" : String)) = false := by
  refine ⟨fun t1 t2 => ⟨rfl, rfl⟩, rfl, rfl, ?_⟩
  decide

/-- One entry of the tasks directory as seen by
`run_parallel_evaluations`: its name and whether it is a directory that
contains a `task.yaml`. -/
structure DirEntry where
  name : String
  isDir : Bool
  hasTaskYaml : Bool
deriving DecidableEq

/-- The discovery step of `run_parallel_evaluations`
(examples/evaluation/swebench_verified.py line 291): candidate task
directories are the entries that are directories containing `task.yaml`. -/
def discoverTaskDirs (entries : List DirEntry) : List DirEntry :=
  entries.filter (fun d => d.isDir && d.hasTaskYaml)

/-- `run_parallel_evaluations` (examples/evaluation/swebench_verified.py
lines 286-309): discover task directories, return `[]` when none, truncate
the list to the first `parallel_num` entries (line 297), and gather one
result per launched task with `return_exceptions=True`, so a task whose
runner raises contributes its exception object (`Sum.inl`) to the list
instead of aborting the batch.  The per-task behaviour (a returned dict or
a raised exception) is supplied by `runTask`, abstracting the awaited
`run_single_task` calls. -/
def run_parallel_evaluations (entries : List DirEntry) (parallel_num : Nat)
    (runTask : String → Sum String TaskDict) : List (Sum String TaskDict) :=
  if discoverTaskDirs entries = [] then []
  else ((discoverTaskDirs entries).take parallel_num).map (fun d => runTask d.name)

/-- Two well-formed task directories; used with `parallel_num = 1`. -/
def entriesC3 : List DirEntry :=
  [{ name := "task-a", isDir := true, hasTaskYaml := true },
   { name := "task-b", isDir := true, hasTaskYaml := true }]

/-- A per-task behaviour where every launched task returns a success dict. -/
def runTaskOk : String → Sum String TaskDict :=
  fun nm => Sum.inr { task_name := nm, sandbox_id := some "sb", status := "success",
                      resolved := some true, results := some "parsed", error := none }

/-- Claim C3: with two discovered task directories and parallelism 1 the
orchestrator launches and reports only one task -- the candidate list is
truncated to `parallel_num` entries before launching -- so the admission
gate's capacity also bounds how many tasks run at all, contrary to the
claim. -/
theorem truncation_drops_discovered_tasks :
    (discoverTaskDirs entriesC3).length = 2 ∧
    (run_parallel_evaluations entriesC3 1 runTaskOk).length = 1 ∧
    run_parallel_evaluations entriesC3 1 runTaskOk = [runTaskOk "task-a"] :=
  ⟨rfl, rfl, rfl⟩

/-- A per-task behaviour whose runner raises. -/
def runTaskRaises : String → Sum String TaskDict :=
  fun _ => Sum.inl "RuntimeError: boom"

/-- A single well-formed task directory. -/
def entriesC6 : List DirEntry :=
  [{ name := "task-a", isDir := true, hasTaskYaml := true }]

/-- Whether an aggregated entry is a raw exception object rather than a
result dict. -/
def isRawException (r : Sum String TaskDict) : Bool :=
  match r with
  | Sum.inl _ => true
  | Sum.inr _ => false

/-- Claim C6 counterexample: when the single task's runner raises, the aggregated
result list holds the raw exception itself, not a failure-shaped dict with
a task name, failed status and error cause. -/
theorem exception_in_results_cex :
    run_parallel_evaluations entriesC6 4 runTaskRaises = [Sum.inl "RuntimeError: boom"] ∧
    (run_parallel_evaluations entriesC6 4 runTaskRaises).countP isRawException = 1 :=
  ⟨rfl, rfl⟩

/-- Whether `main`'s summary counts an aggregated entry as successful
(examples/evaluation/swebench_verified.py lines 350-352): it must be a dict
whose status is "success" and whose resolved value is True. -/
def countsAsSuccess (r : Sum String TaskDict) : Bool :=
  match r with
  | Sum.inl _ => false
  | Sum.inr d => (d.status == "success") && (d.resolved == some true)

/-- The contribution of an aggregated entry to `main`'s named failure
listing (examples/evaluation/swebench_verified.py lines 360-363): only
dicts with status "failed" are listed, with `error` defaulting to
"Unknown error". -/
def entryAsFailure (r : Sum String TaskDict) : Option (String × String) :=
  match r with
  | Sum.inl _ => none
  | Sum.inr d =>
    if d.status = "failed" then some (d.task_name, d.error.getD "Unknown error") else none

/-- The printed evaluation summary of `main`
(examples/evaluation/swebench_verified.py lines 350-363). -/
structure EvalSummary where
  total : Nat
  success : Nat
  failed : Nat
  failures : List (String × String)
deriving DecidableEq

def summarize (results : List (Sum String TaskDict)) : EvalSummary :=
  { total := results.length,
    success := results.countP countsAsSuccess,
    failed := results.length - results.countP countsAsSuccess,
    failures := results.filterMap entryAsFailure }

/-- Claim C6 (amended): an exception raised by a task's runner is kept by
the orchestrator as a raw exception entry in the aggregated list -- the
batch still completes with one entry per launched task -- and the summary
counts it as failed (not success) while omitting it from the named failure
listing; it is never converted into a failure-shaped dict. -/
theorem exception_kept_raw_in_results (entries : List DirEntry) (n : Nat)
    (runTask : String → Sum String TaskDict) (d : DirEntry) (e : String)
    (hmem : d ∈ (discoverTaskDirs entries).take n)
    (hraise : runTask d.name = Sum.inl e) :
    Sum.inl e ∈ run_parallel_evaluations entries n runTask ∧
    countsAsSuccess (Sum.inl e) = false ∧
    entryAsFailure (Sum.inl e) = none ∧
    (run_parallel_evaluations entries n runTask).length =
      ((discoverTaskDirs entries).take n).length := by
  have hne : discoverTaskDirs entries ≠ [] := by
    intro h0
    rw [h0] at hmem
    simp at hmem
  have hrun : run_parallel_evaluations entries n runTask =
      ((discoverTaskDirs entries).take n).map (fun d => runTask d.name) := by
    unfold run_parallel_evaluations
    rw [if_neg hne]
  refine ⟨?_, rfl, rfl, ?_⟩
  · rw [hrun, ← hraise]
    exact List.mem_map_of_mem _ hmem
  · rw [hrun, List.length_map]

theorem exception_kept_raw_in_results_witness :
    Sum.inl "RuntimeError: boom" ∈ run_parallel_evaluations entriesC6 4 runTaskRaises ∧
    countsAsSuccess (Sum.inl "RuntimeError: boom") = false ∧
    entryAsFailure (Sum.inl "RuntimeError: boom") = none ∧
    (run_parallel_evaluations entriesC6 4 runTaskRaises).length =
      ((discoverTaskDirs entriesC6).take 4).length :=
  exception_kept_raw_in_results entriesC6 4 runTaskRaises
    { name := "task-a", isDir := true, hasTaskYaml := true } "RuntimeError: boom"
    (by decide) rfl

/-- Claim C10: the printed failed count is the total number of results
minus the count of entries that are both status success and resolved true,
and a dict with status success but resolved false is counted as failed (it
fails the success predicate) while contributing nothing to the named
failure listing. -/
theorem failed_count_and_unresolved_success (results : List (Sum String TaskDict)) :
    (summarize results).total = results.length ∧
    (summarize results).failed = results.length - (summarize results).success ∧
    ∀ d : TaskDict, d.status = "success" → d.resolved = some false →
      countsAsSuccess (Sum.inr d) = false ∧ entryAsFailure (Sum.inr d) = none := by
  refine ⟨rfl, rfl, ?_⟩
  intro d hs hr
  constructor
  · show ((d.status == "success") && (d.resolved == some true)) = false
    rw [hr]
    simp
  · show (if d.status = "failed" then some (d.task_name, d.error.getD "Unknown error")
      else none) = none
    rw [hs]
    simp

/-- A result dict that completed with status success but an unresolved
verdict. -/
def dSuccFalse : TaskDict :=
  { task_name := "task-a", sandbox_id := some "sb", status := "success",
    resolved := some false, results := some "parsed", error := none }

theorem failed_count_and_unresolved_success_witness :
    countsAsSuccess (Sum.inr dSuccFalse) = false ∧ entryAsFailure (Sum.inr dSuccFalse) = none :=
  (failed_count_and_unresolved_success [Sum.inr dSuccFalse]).2.2 dSuccFalse rfl rfl
